import Mathlib

/-!
Shallow embedding of the scraping job execution engine of
`src/server/services/scraper.ts` (class `ScrapingService`) together with the
storage-gateway operations of `src/server/storage.ts` that it calls.

External collaborators (the HTTP fetch, the cheerio parser, and the two
JavaScript regular expressions) are modelled as parameters of the run
(`RunEnv`); everything the repository's own code does with their results is
translated line by line.  The concurrent setting of the pause/stop flags is
modelled by a schedule `sched : Nat → Ctrl` of control signals applied at the
loop's check points (source line 41), which is exactly where the code observes
them.  Storage-gateway calls are modelled as always succeeding; the run also
produces an observational event trace (`Event`) recording every persisted
write and every rate-limit wait, in program order.
-/

namespace Scraper

/-- Job configuration as read by the scraper (`job.config`): the rate limit in
requests per second (`config?.rateLimit || 1`) and the raw-html flag
(`config?.saveRawHtml`). -/
structure Config where
  rateLimit : Option ℚ
  saveRawHtml : Bool
  deriving DecidableEq

/-- A scraping job record as persisted by the storage gateway.  Timestamps are
reduced to the `completedAt`-was-set flag; fields the engine never reads or
writes (userId, name, createdAt, ...) are omitted. -/
structure Job where
  urls : List String
  adapterType : String
  config : Option Config
  status : String
  progress : Nat
  recordsFound : Option Nat
  totalPages : Option Nat
  completedAt : Bool
  deriving DecidableEq

/-- One row of the `scrapedData` collection (`storage.addScrapedData`). -/
structure ScrapedRow where
  jobId : String
  sourceUrl : String
  dataType : String
  extractedData : List (String × String)
  rawHtml : Option String
  deriving DecidableEq

/-- One row of the `jobLogs` collection (`storage.addJobLog`). -/
structure LogRow where
  jobId : String
  level : String
  message : String
  deriving DecidableEq

/-- The durable state behind the storage gateway. -/
structure Storage where
  jobs : List (String × Job)
  scraped : List ScrapedRow
  logs : List LogRow
  deriving DecidableEq

/-- `storage.getScrapingJob` (`ScrapingJob.findOne({id})`). -/
def getJob (s : Storage) (id : String) : Option Job :=
  (s.jobs.find? (fun p => p.1 == id)).map (fun p => p.2)

/-- `ScrapingJob.updateOne({id}, ...)`: updates the matching row, a no-op when
the id is absent. -/
def updateJob (s : Storage) (id : String) (f : Job → Job) : Storage :=
  { s with jobs := s.jobs.map (fun p => if p.1 = id then (p.1, f p.2) else p) }

/-- `storage.updateScrapingJobStatus`: sets status, optionally progress, and
stamps `completedAt` on the completed/failed transitions
(`src/server/storage.ts` lines 110-124). -/
def updateScrapingJobStatus (s : Storage) (id status : String)
    (progress : Option Nat) : Storage :=
  updateJob s id (fun j =>
    { j with
      status := status
      progress := progress.getD j.progress
      completedAt :=
        if status = "completed" ∨ status = "failed" then true else j.completedAt })

/-- `storage.updateScrapingJobMetrics`: applies exactly the provided fields. -/
def updateScrapingJobMetrics (s : Storage) (id : String)
    (rf tp : Option Nat) (setCompleted : Bool) : Storage :=
  updateJob s id (fun j =>
    { j with
      recordsFound := match rf with | some n => some n | none => j.recordsFound
      totalPages := match tp with | some n => some n | none => j.totalPages
      completedAt := if setCompleted then true else j.completedAt })

/-- `storage.addScrapedData`: inserts one row. -/
def addScrapedData (s : Storage) (row : ScrapedRow) : Storage :=
  { s with scraped := s.scraped ++ [row] }

/-- `storage.addJobLog`: inserts one log row (always succeeds, even for an
unknown job id). -/
def addJobLog (s : Storage) (jobId level message : String) : Storage :=
  { s with logs := s.logs ++ [⟨jobId, level, message⟩] }

/-- The result of `cheerio.load(html)` as consumed by `extractData`:
`$.text()` (`fullText`), `$(sel).first().text()` (`selText`, not yet trimmed),
and `$(sel).attr("content")` (`attrContent`). -/
structure Doc where
  fullText : String
  selText : String → String
  attrContent : String → Option String

/-- The empty document: what cheerio yields for empty markup. -/
def emptyDoc : Doc :=
  { fullText := "", selText := fun _ => "", attrContent := fun _ => none }

/-- The external collaborators of one run: the HTTP fetch (returning the body
text or a thrown-error string), the cheerio parser, and the two regex scans
(`text.match(emailPattern)` / `text.match(phonePattern)`, all matches in text
order, `[]` for JavaScript's `null`). -/
structure RunEnv where
  fetch : String → Except String String
  parse : String → Doc
  matchEmail : String → List String
  matchPhone : String → List String

/-- JavaScript `String.prototype.trim`, modelled structurally over the
character list (Lean's built-in `String.trim` is equivalent but does not
reduce inside the kernel). -/
def trimStr (s : String) : String :=
  ⟨((s.data.dropWhile Char.isWhitespace).reverse.dropWhile
      Char.isWhitespace).reverse⟩

/-- `ScrapingService.extractData` (`scraper.ts` lines 130-189): first email and
phone match, adapter-specific selector fields, then the clean-up pass removing
empty values.  A total Lean function: deterministic and never raising, for
every document and adapter type. -/
def extractData (env : RunEnv) (doc : Doc) (adapterType : String) :
    List (String × String) :=
  let contact :=
    (match env.matchEmail doc.fullText with
      | [] => []
      | e :: _ => [("email", e)]) ++
    (match env.matchPhone doc.fullText with
      | [] => []
      | p :: _ => [("phone", p)])
  let adapterFields :=
    if adapterType = "ecommerce" then
      [("title", trimStr (doc.selText "h1, .product-title, [data-testid*=\"title\"]")),
       ("price", trimStr (doc.selText ".price, .product-price, [data-testid*=\"price\"]")),
       ("description", trimStr (doc.selText ".description, .product-description"))]
    else if adapterType = "directory" then
      [("name", trimStr (doc.selText "h1, .business-name, .company-name")),
       ("company", trimStr (doc.selText ".company, .business-name")),
       ("address", trimStr (doc.selText ".address, .location"))]
    else if adapterType = "news" then
      [("title", trimStr (doc.selText "h1, .article-title, .headline")),
       ("description", trimStr (doc.selText ".article-summary, .excerpt, .description"))]
    else if adapterType = "social" then
      [("name", trimStr (doc.selText ".profile-name, .user-name, h1")),
       ("description", trimStr (doc.selText ".bio, .description, .profile-description"))]
    else
      [("title", trimStr (doc.selText "h1")),
       ("description", (doc.attrContent "meta[name=\"description\"]").getD "")]
  (contact ++ adapterFields).filter (fun kv => kv.2 != "")

/-- JavaScript `Math.round` on a nonnegative rational: `⌊x + 1/2⌋`. -/
def mathRound (q : ℚ) : ℤ := ⌊q + 1/2⌋

/-- `Math.round((processedPages / totalUrls) * 100)` (`scraper.ts` line 50),
computed over naturals: `(200*p + total) / (2*total)` is exactly
`⌊p/total*100 + 1/2⌋` — the bridge lemma `progressOf_eq_mathRound` below
proves the equality with the rational `Math.round` formula. -/
def progressOf (p total : Nat) : Nat :=
  (200 * p + total) / (2 * total)

/-- `job.config?.rateLimit || 1` (`scraper.ts` line 54): 1 when the config or
the rate is absent, and 1 for the falsy rate 0. -/
def effRate (cfg : Option Config) : ℚ :=
  match cfg with
  | none => 1
  | some c =>
    match c.rateLimit with
    | none => 1
    | some r => if r = 0 then 1 else r

/-- Observational trace events: every storage write and every rate-limit wait
performed by a run, in program order. -/
inductive Event where
  | statusUpdate (jobId status : String) (progress : Option Nat)
  | metricsUpdate (jobId : String) (recordsFound totalPages : Option Nat)
      (setCompleted : Bool)
  | recordAdded (row : ScrapedRow)
  | logAdded (jobId level message : String)
  | waited (ms : ℚ)
  deriving DecidableEq

/-- The in-memory state of the `ScrapingService` instance (`activeJobs` map,
`pausedJobs` set) together with the storage state. -/
structure ServiceState where
  activeJobs : List (String × Bool)
  pausedJobs : List String
  storage : Storage
  deriving DecidableEq

/-- `this.activeJobs.get(jobId)`. -/
def lookupActive (m : List (String × Bool)) (jobId : String) : Option Bool :=
  (m.find? (fun p => p.1 == jobId)).map (fun p => p.2)

/-- `this.activeJobs.set(jobId, v)`. -/
def setActive (m : List (String × Bool)) (jobId : String) (v : Bool) :
    List (String × Bool) :=
  if m.any (fun p => p.1 == jobId) then
    m.map (fun p => if p.1 = jobId then (p.1, v) else p)
  else m ++ [(jobId, v)]

/-- `this.activeJobs.delete(jobId)` (map keys are unique, so removing every
occurrence coincides with deleting the entry). -/
def removeActive (m : List (String × Bool)) (jobId : String) :
    List (String × Bool) :=
  m.filter (fun p => p.1 != jobId)

/-- `this.pausedJobs.add(jobId)` (set semantics: no duplicate entry). -/
def addPaused (ps : List String) (jobId : String) : List String :=
  if ps.contains jobId then ps else ps ++ [jobId]

/-- `this.pausedJobs.delete(jobId)` (set semantics). -/
def removePaused (ps : List String) (jobId : String) : List String :=
  ps.filter (fun s => s != jobId)

/-- `ScrapingService.pauseJob` (`scraper.ts` lines 191-193). -/
def pauseJob (st : ServiceState) (jobId : String) : ServiceState :=
  { st with pausedJobs := addPaused st.pausedJobs jobId }

/-- `ScrapingService.stopJob` (`scraper.ts` lines 203-206). -/
def stopJob (st : ServiceState) (jobId : String) : ServiceState :=
  { st with
    activeJobs := setActive st.activeJobs jobId false
    pausedJobs := removePaused st.pausedJobs jobId }

/-- A control signal delivered by the environment at one of the loop's check
points: nothing, a `pauseJob`, or a `stopJob` for this job id. -/
inductive Ctrl where
  | idle
  | pauseSignal
  | stopSignal
  deriving DecidableEq

/-- Applies a control signal to the service state. -/
def applyCtrl (c : Ctrl) (jobId : String) (st : ServiceState) : ServiceState :=
  match c with
  | Ctrl.idle => st
  | Ctrl.pauseSignal => pauseJob st jobId
  | Ctrl.stopSignal => stopJob st jobId

/-- The schedule delivering no control signal at all. -/
def noCtrl : Nat → Ctrl := fun _ => Ctrl.idle

/-- The loop's cooperative-cancellation check (`scraper.ts` line 41):
`this.pausedJobs.has(jobId) || !this.activeJobs.get(jobId)`. -/
def breakCond (st : ServiceState) (jobId : String) : Bool :=
  st.pausedJobs.contains jobId || !((lookupActive st.activeJobs jobId).getD false)

/-- `ScrapingService.scrapeUrl` (`scraper.ts` lines 87-128): fetch, parse,
extract; when the extraction is non-empty persist a `ScrapedRow` and bump
`recordsFound` via a read-modify-write of the stored job.  On a fetch failure
the thrown error message is `Failed to scrape ${url}: ${error}`.  Returns the
updated storage with the trace of its writes. -/
def scrapeUrl (env : RunEnv) (jobId url adapterType : String)
    (cfg : Option Config) (s : Storage) : Except String (Storage × List Event) :=
  match env.fetch url with
  | Except.error e => Except.error ("Failed to scrape " ++ url ++ ": " ++ e)
  | Except.ok html =>
    let doc := env.parse html
    let extracted := extractData env doc adapterType
    if extracted.length > 0 then
      let row : ScrapedRow :=
        { jobId := jobId
          sourceUrl := url
          dataType := adapterType
          extractedData := extracted
          rawHtml :=
            if (cfg.map Config.saveRawHtml).getD false then some html else none }
      let s1 := addScrapedData s row
      match getJob s1 jobId with
      | some cur =>
        let n := cur.recordsFound.getD 0 + 1
        Except.ok (updateScrapingJobMetrics s1 jobId (some n) none false,
          [Event.recordAdded row, Event.metricsUpdate jobId (some n) none false])
      | none => Except.ok (s1, [Event.recordAdded row])
    else Except.ok (s, [])

/-- The per-URL loop of `ScrapingService.startScrapingJob` (`scraper.ts` lines
39-61): at each check point the scheduled control signal is applied and the
break condition read; on success the progress update and the rate-limit wait
follow; on failure one error log entry is written and the loop continues.
Returns `(processedPages, service state, event trace)`. -/
def runUrls (env : RunEnv) (jobId adapterType : String) (cfg : Option Config)
    (sched : Nat → Ctrl) (total : Nat) :
    List String → Nat → Nat → ServiceState → Nat × ServiceState × List Event
  | [], _, processed, st => (processed, st, [])
  | url :: rest, i, processed, st =>
    let st1 := applyCtrl (sched i) jobId st
    if breakCond st1 jobId then (processed, st1, [])
    else
      match scrapeUrl env jobId url adapterType cfg st1.storage with
      | Except.error msg =>
        let logMsg := "Failed to scrape " ++ url ++ ": Error: " ++ msg
        let st2 := { st1 with storage := addJobLog st1.storage jobId "error" logMsg }
        let r := runUrls env jobId adapterType cfg sched total rest (i + 1) processed st2
        (r.1, r.2.1, Event.logAdded jobId "error" logMsg :: r.2.2)
      | Except.ok (s', evs) =>
        let processed1 := processed + 1
        let pr := progressOf processed1 total
        let s2 := updateScrapingJobStatus s' jobId "running" (some pr)
        let q := 1000 / effRate cfg
        let st2 := { st1 with storage := s2 }
        let r := runUrls env jobId adapterType cfg sched total rest (i + 1) processed1 st2
        (r.1, r.2.1,
         evs ++ Event.statusUpdate jobId "running" (some pr) :: Event.waited q :: r.2.2)

/-- `ScrapingService.startScrapingJob` (`scraper.ts` lines 25-85).  The only
model-visible throw is the missing-job one; it lands in the outer catch, which
deregisters the id, sets status `failed` (a storage no-op for an unknown id)
and logs `Job failed: Error: Job not found`. -/
def startScrapingJob (env : RunEnv) (jobId : String) (sched : Nat → Ctrl)
    (st : ServiceState) : ServiceState × List Event :=
  match getJob st.storage jobId with
  | none =>
    let st1 : ServiceState :=
      { st with
        activeJobs := removeActive st.activeJobs jobId
        pausedJobs := removePaused st.pausedJobs jobId }
    let msg := "Job failed: Error: Job not found"
    let s1 := updateScrapingJobStatus st1.storage jobId "failed" none
    let s2 := addJobLog s1 jobId "error" msg
    ({ st1 with storage := s2 },
     [Event.statusUpdate jobId "failed" none, Event.logAdded jobId "error" msg])
  | some job =>
    let st1 := { st with activeJobs := setActive st.activeJobs jobId true }
    let s1 := updateScrapingJobStatus st1.storage jobId "running" (some 0)
    let s2 := addJobLog s1 jobId "info" "Job started"
    let total := job.urls.length
    let r := runUrls env jobId job.adapterType job.config sched total job.urls 0 0
      { st1 with storage := s2 }
    let processed := r.1
    let st2 : ServiceState :=
      { r.2.1 with
        activeJobs := removeActive r.2.1.activeJobs jobId
        pausedJobs := removePaused r.2.1.pausedJobs jobId }
    if processed = total then
      let s3 := updateScrapingJobStatus st2.storage jobId "completed" (some 100)
      let s4 := updateScrapingJobMetrics s3 jobId none (some processed) true
      let s5 := addJobLog s4 jobId "info" "Job completed successfully"
      ({ st2 with storage := s5 },
       Event.statusUpdate jobId "running" (some 0) ::
         Event.logAdded jobId "info" "Job started" ::
         r.2.2 ++
           [Event.statusUpdate jobId "completed" (some 100),
            Event.metricsUpdate jobId none (some processed) true,
            Event.logAdded jobId "info" "Job completed successfully"])
    else
      let pr := progressOf processed total
      let s3 := updateScrapingJobStatus st2.storage jobId "paused" (some pr)
      let s4 := addJobLog s3 jobId "warning" "Job paused or cancelled"
      ({ st2 with storage := s4 },
       Event.statusUpdate jobId "running" (some 0) ::
         Event.logAdded jobId "info" "Job started" ::
         r.2.2 ++
           [Event.statusUpdate jobId "paused" (some pr),
            Event.logAdded jobId "warning" "Job paused or cancelled"])

/-- `ScrapingService.resumeJob` (`scraper.ts` lines 195-201): clears the pause
flag and re-invokes `startScrapingJob`. -/
def resumeJob (env : RunEnv) (jobId : String) (sched : Nat → Ctrl)
    (st : ServiceState) : ServiceState × List Event :=
  startScrapingJob env jobId sched
    { st with pausedJobs := removePaused st.pausedJobs jobId }

/-! Observations on traces. -/

/-- Whether a URL's scrape would succeed with a non-empty extraction. -/
def extractsB (env : RunEnv) (adapterType u : String) : Bool :=
  match env.fetch u with
  | Except.ok h => !(extractData env (env.parse h) adapterType).isEmpty
  | Except.error _ => false

/-- The scraped rows persisted along a trace. -/
def recordsOf (evs : List Event) : List ScrapedRow :=
  evs.filterMap (fun e =>
    match e with | Event.recordAdded row => some row | _ => none)

/-- The sequence of progress values persisted along a trace. -/
def progressValuesOf (evs : List Event) : List Nat :=
  evs.filterMap (fun e =>
    match e with | Event.statusUpdate _ _ p => p | _ => none)

/-- The sequence of rate-limit waits performed along a trace. -/
def waitsOf (evs : List Event) : List ℚ :=
  evs.filterMap (fun e =>
    match e with | Event.waited q => some q | _ => none)

/-! Basic lemmas about the storage and registry operations. -/

lemma find?_map_update (l : List (String × Job)) (id : String) (f : Job → Job) :
    ((l.map (fun p => if p.1 = id then (p.1, f p.2) else p)).find?
        (fun p => p.1 == id)).map (fun p => p.2)
      = (((l.find? (fun p => p.1 == id)).map (fun p => p.2)).map f) := by
  induction l with
  | nil => rfl
  | cons hd tl ih =>
    by_cases h : hd.1 = id
    · simp [h]
    · have hb : (hd.1 == id) = false := by simp [h]
      simp only [List.map_cons, if_neg h]
      rw [List.find?_cons_of_neg _ (by simp [hb]),
        List.find?_cons_of_neg _ (by simp [hb])]
      exact ih

lemma getJob_updateJob (s : Storage) (id : String) (f : Job → Job) :
    getJob (updateJob s id f) id = (getJob s id).map f := by
  obtain ⟨jl, sc, lg⟩ := s
  simpa [getJob, updateJob] using find?_map_update jl id f

lemma getJob_addScrapedData (s : Storage) (row : ScrapedRow) (id : String) :
    getJob (addScrapedData s row) id = getJob s id := rfl

lemma getJob_addJobLog (s : Storage) (jobId level message id : String) :
    getJob (addJobLog s jobId level message) id = getJob s id := rfl

lemma scraped_updateJob (s : Storage) (id : String) (f : Job → Job) :
    (updateJob s id f).scraped = s.scraped := rfl

lemma logs_updateJob (s : Storage) (id : String) (f : Job → Job) :
    (updateJob s id f).logs = s.logs := rfl

lemma jobs_addJobLog (s : Storage) (jobId level message : String) :
    (addJobLog s jobId level message).jobs = s.jobs := rfl

lemma jobs_addScrapedData (s : Storage) (row : ScrapedRow) :
    (addScrapedData s row).jobs = s.jobs := rfl

lemma lookupActive_mapSet (m : List (String × Bool)) (id : String) (v : Bool) :
    lookupActive (m.map (fun p => if p.1 = id then (p.1, v) else p)) id
      = if m.any (fun p => p.1 == id) then some v else none := by
  induction m with
  | nil => rfl
  | cons hd tl ih =>
    by_cases h : hd.1 = id
    · simp [lookupActive, h]
    · simp only [List.map_cons, List.any_cons]
      rw [if_neg h]
      have hb : (hd.1 == id) = false := by simp [h]
      simp only [lookupActive] at ih ⊢
      rw [List.find?_cons_of_neg _ (by simp [hb]), ih]
      simp [hb]

lemma lookupActive_append_absent (m : List (String × Bool)) (id : String) (v : Bool)
    (h : m.any (fun p => p.1 == id) = false) :
    lookupActive (m ++ [(id, v)]) id = some v := by
  induction m with
  | nil => simp [lookupActive]
  | cons hd tl ih =>
    simp only [List.any_cons, Bool.or_eq_false_iff] at h
    simp only [lookupActive, List.cons_append]
    rw [List.find?_cons_of_neg _ (by simp [h.1])]
    simpa [lookupActive] using ih h.2

lemma lookupActive_setActive (m : List (String × Bool)) (id : String) (v : Bool) :
    lookupActive (setActive m id v) id = some v := by
  unfold setActive
  split
  · rename_i h
    rw [lookupActive_mapSet, if_pos h]
  · rename_i h
    have h' : m.any (fun p => p.1 == id) = false := by
      rwa [Bool.not_eq_true] at h
    exact lookupActive_append_absent m id v h'

lemma contains_addPaused (ps : List String) (id : String) :
    (addPaused ps id).contains id = true := by
  unfold addPaused
  split
  · assumption
  · simp

lemma contains_removePaused (ps : List String) (id : String) :
    (removePaused ps id).contains id = false := by
  unfold removePaused
  induction ps with
  | nil => rfl
  | cons hd tl ih =>
    by_cases h : hd = id
    · simp only [List.filter_cons]
      rw [if_neg (by simp [h])]
      exact ih
    · simp only [List.filter_cons]
      rw [if_pos (by simp [h])]
      rw [List.contains_cons]
      simp only [ih, Bool.or_false]
      simp [Ne.symm h]

lemma breakCond_false (st : ServiceState) (jobId : String)
    (hp : st.pausedJobs.contains jobId = false)
    (ha : lookupActive st.activeJobs jobId = some true) :
    breakCond st jobId = false := by
  unfold breakCond
  rw [hp, ha]
  rfl

/-! Arithmetic facts about the progress formula. -/

/-- Bridge: the natural-number computation in `progressOf` is exactly
JavaScript's `Math.round((p / total) * 100)`. -/
lemma progressOf_eq_mathRound (p t : Nat) :
    (progressOf p t : ℤ) = mathRound ((p : ℚ) / (t : ℚ) * 100) := by
  unfold progressOf mathRound
  rcases Nat.eq_zero_or_pos t with ht | ht
  · subst ht
    rw [show ((0 : Nat) : ℚ) = 0 from rfl, div_zero, zero_mul, zero_add]
    rw [show ((1 : ℚ)/2) = ((1 : Nat) : ℚ) / ((2 : Nat) : ℚ) by norm_num,
      Rat.floor_natCast_div_natCast]
    norm_num
  · have ht' : (t : ℚ) ≠ 0 := by
      have : (0 : ℚ) < (t : ℚ) := by exact_mod_cast ht
      exact ne_of_gt this
    have hstep : (p : ℚ) / (t : ℚ) * 100 + 1/2
        = ((200 * p + t : Nat) : ℚ) / ((2 * t : Nat) : ℚ) := by
      push_cast
      field_simp
      ring
    rw [hstep, Rat.floor_natCast_div_natCast]
    push_cast [Int.ofNat_div]
    rfl

lemma progressOf_mono (t : Nat) {p q : Nat} (h : p ≤ q) :
    progressOf p t ≤ progressOf q t := by
  unfold progressOf
  exact Nat.div_le_div_right (by omega)

lemma progressOf_self {t : Nat} (ht : 0 < t) : progressOf t t = 100 := by
  unfold progressOf
  rw [show 200 * t + t = 2 * t * 100 + t from by ring,
    Nat.mul_add_div (by omega), Nat.div_eq_of_lt (by omega)]

/-! Chains of non-decreasing progress sequences. -/

lemma chain_map_range (f : Nat → Nat) (fin : Nat) (hf : ∀ k, f k ≤ f (k + 1)) :
    ∀ s start, f (start + s) ≤ fin →
      List.Chain' (fun a b : Nat => a ≤ b)
        ((List.range' start (s + 1)).map f ++ [fin]) := by
  intro s
  induction s with
  | zero =>
    intro start hl
    rw [show (0 : Nat) + 1 = 1 from rfl, List.range'_one]
    simp only [List.map_cons, List.map_nil, List.cons_append, List.nil_append]
    rw [List.chain'_pair]
    simpa using hl
  | succ n ih =>
    intro start hl
    rw [List.range'_succ]
    simp only [List.map_cons, List.cons_append]
    rw [List.chain'_cons']
    constructor
    · intro h hh
      rw [List.range'_succ] at hh
      simp only [List.map_cons, List.cons_append, List.head?_cons,
        Option.mem_def, Option.some.injEq] at hh
      subst hh
      exact hf start
    · exact ih (start + 1) (by
        have : start + 1 + n = start + (n + 1) := by omega
        rw [this]; exact hl)

lemma chain_progress_list (f : Nat → Nat) (s fin : Nat)
    (hf : ∀ k, f k ≤ f (k + 1)) (hlast : s = 0 ∨ f s ≤ fin) :
    List.Chain' (fun a b : Nat => a ≤ b)
      (0 :: ((List.range' 1 s).map f ++ [fin])) := by
  rcases s with _ | n
  · simp
  · rcases hlast with h0 | hl
    · exact absurd h0 (Nat.succ_ne_zero n)
    · rw [List.chain'_cons']
      constructor
      · intro h hh
        rw [List.range'_succ] at hh
        simp only [List.map_cons, List.cons_append, List.head?_cons,
          Option.mem_def, Option.some.injEq] at hh
        subst hh
        exact Nat.zero_le _
      · exact chain_map_range f fin hf n 1 (by simpa [Nat.add_comm] using hl)

/-! The structural shape of a loop trace: each successfully scraped URL
contributes its persistence events (scraped row, recordsFound bump) followed by
its progress update and exactly one rate-limit wait; each failed URL
contributes one error-level log entry and nothing else. -/

/-- The write events `scrapeUrl` can emit for one URL. -/
def persistEvents (jobId : String) (pre : List Event) : Prop :=
  pre = [] ∨ (∃ row, pre = [Event.recordAdded row]) ∨
    ∃ row n, pre = [Event.recordAdded row,
      Event.metricsUpdate jobId (some n) none false]

/-- Grammar of the traces the per-URL loop can produce. -/
inductive LoopShape (jobId : String) (q : ℚ) : List Event → Prop
  | nil : LoopShape jobId q []
  | fail (msg : String) (rest : List Event) : LoopShape jobId q rest →
      LoopShape jobId q (Event.logAdded jobId "error" msg :: rest)
  | succ (pre : List Event) (pr : Nat) (rest : List Event) :
      persistEvents jobId pre → LoopShape jobId q rest →
      LoopShape jobId q
        (pre ++ Event.statusUpdate jobId "running" (some pr) ::
          Event.waited q :: rest)

lemma progressValuesOf_append (a b : List Event) :
    progressValuesOf (a ++ b) = progressValuesOf a ++ progressValuesOf b := by
  simp [progressValuesOf]

lemma waitsOf_append (a b : List Event) :
    waitsOf (a ++ b) = waitsOf a ++ waitsOf b := by
  simp [waitsOf]

lemma recordsOf_append (a b : List Event) :
    recordsOf (a ++ b) = recordsOf a ++ recordsOf b := by
  simp [recordsOf]

lemma progressValuesOf_cons_status (a b : String) (n : Nat) (l : List Event) :
    progressValuesOf (Event.statusUpdate a b (some n) :: l)
      = n :: progressValuesOf l := rfl

lemma progressValuesOf_cons_wait (q : ℚ) (l : List Event) :
    progressValuesOf (Event.waited q :: l) = progressValuesOf l := rfl

lemma progressValuesOf_cons_log (a b c : String) (l : List Event) :
    progressValuesOf (Event.logAdded a b c :: l) = progressValuesOf l := rfl

lemma progressValuesOf_cons_record (row : ScrapedRow) (l : List Event) :
    progressValuesOf (Event.recordAdded row :: l) = progressValuesOf l := rfl

lemma progressValuesOf_cons_metrics (a : String) (rf tp : Option Nat) (b : Bool)
    (l : List Event) :
    progressValuesOf (Event.metricsUpdate a rf tp b :: l) = progressValuesOf l := rfl

lemma recordsOf_cons_metrics (a : String) (rf tp : Option Nat) (b : Bool)
    (l : List Event) :
    recordsOf (Event.metricsUpdate a rf tp b :: l) = recordsOf l := rfl

lemma waitsOf_cons_wait (q : ℚ) (l : List Event) :
    waitsOf (Event.waited q :: l) = q :: waitsOf l := rfl

lemma waitsOf_cons_status (a b : String) (n : Option Nat) (l : List Event) :
    waitsOf (Event.statusUpdate a b n :: l) = waitsOf l := rfl

lemma waitsOf_cons_log (a b c : String) (l : List Event) :
    waitsOf (Event.logAdded a b c :: l) = waitsOf l := rfl

lemma recordsOf_cons_status (a b : String) (n : Option Nat) (l : List Event) :
    recordsOf (Event.statusUpdate a b n :: l) = recordsOf l := rfl

lemma recordsOf_cons_wait (q : ℚ) (l : List Event) :
    recordsOf (Event.waited q :: l) = recordsOf l := rfl

lemma recordsOf_cons_log (a b c : String) (l : List Event) :
    recordsOf (Event.logAdded a b c :: l) = recordsOf l := rfl

lemma recordsOf_cons_record (row : ScrapedRow) (l : List Event) :
    recordsOf (Event.recordAdded row :: l) = row :: recordsOf l := rfl

lemma recordsOf_nil : recordsOf [] = [] := rfl

lemma progressValuesOf_nil : progressValuesOf [] = [] := rfl

lemma waitsOf_nil : waitsOf [] = [] := rfl

lemma persistEvents_progressValues {jobId : String} {pre : List Event}
    (h : persistEvents jobId pre) : progressValuesOf pre = [] := by
  rcases h with h | ⟨row, h⟩ | ⟨row, n, h⟩ <;> subst h <;> rfl

lemma persistEvents_waits {jobId : String} {pre : List Event}
    (h : persistEvents jobId pre) : waitsOf pre = [] := by
  rcases h with h | ⟨row, h⟩ | ⟨row, n, h⟩ <;> subst h <;> rfl

lemma scrapeUrl_ok_events (env : RunEnv) (jobId url adapterType : String)
    (cfg : Option Config) (s s' : Storage) (evs : List Event)
    (h : scrapeUrl env jobId url adapterType cfg s = Except.ok (s', evs)) :
    persistEvents jobId evs := by
  unfold scrapeUrl at h
  split at h
  · exact absurd h (by simp)
  · simp only at h
    split at h
    · split at h
      · simp only [Except.ok.injEq, Prod.mk.injEq] at h
        right; right; exact ⟨_, _, h.2.symm⟩
      · simp only [Except.ok.injEq, Prod.mk.injEq] at h
        right; left; exact ⟨_, h.2.symm⟩
    · simp only [Except.ok.injEq, Prod.mk.injEq] at h
      left; exact h.2.symm

lemma applyCtrl_idle (jobId : String) (st : ServiceState) :
    applyCtrl Ctrl.idle jobId st = st := rfl

/-- The scraped row `scrapeUrl` persists for one URL (with the fetched body
`html`). -/
def scrapeRow (env : RunEnv) (jobId url adapterType : String)
    (cfg : Option Config) (html : String) : ScrapedRow :=
  { jobId := jobId
    sourceUrl := url
    dataType := adapterType
    extractedData := extractData env (env.parse html) adapterType
    rawHtml :=
      if (cfg.map Config.saveRawHtml).getD false then some html else none }

lemma scrapeUrl_fetch_error (env : RunEnv) (jobId url aT : String)
    (cfg : Option Config) (s : Storage) (e : String)
    (hf : env.fetch url = Except.error e) :
    scrapeUrl env jobId url aT cfg s =
      Except.error ("Failed to scrape " ++ url ++ ": " ++ e) := by
  unfold scrapeUrl
  rw [hf]

lemma scrapeUrl_ok_empty (env : RunEnv) (jobId url aT : String)
    (cfg : Option Config) (s : Storage) (h : String)
    (hf : env.fetch url = Except.ok h)
    (he : extractData env (env.parse h) aT = []) :
    scrapeUrl env jobId url aT cfg s = Except.ok (s, []) := by
  unfold scrapeUrl
  rw [hf]
  simp [he]

lemma scrapeUrl_ok_nonempty (env : RunEnv) (jobId url aT : String)
    (cfg : Option Config) (s : Storage) (h : String) (jc : Job)
    (hf : env.fetch url = Except.ok h)
    (hne : extractData env (env.parse h) aT ≠ [])
    (hjob : getJob s jobId = some jc) :
    scrapeUrl env jobId url aT cfg s =
      Except.ok
        (updateScrapingJobMetrics (addScrapedData s (scrapeRow env jobId url aT cfg h))
          jobId (some (jc.recordsFound.getD 0 + 1)) none false,
         [Event.recordAdded (scrapeRow env jobId url aT cfg h),
          Event.metricsUpdate jobId (some (jc.recordsFound.getD 0 + 1)) none false]) := by
  unfold scrapeUrl scrapeRow
  rw [hf]
  have hlen : (extractData env (env.parse h) aT).length > 0 :=
    List.length_pos.mpr hne
  simp only [hlen, if_pos]
  rw [show getJob (addScrapedData s
      { jobId := jobId, sourceUrl := url, dataType := aT,
        extractedData := extractData env (env.parse h) aT,
        rawHtml := if (cfg.map Config.saveRawHtml).getD false then some h else none })
      jobId = some jc from hjob]

lemma getJob_status_update (s : Storage) (id status : String) (pr : Option Nat)
    (jc : Job) (h : getJob s id = some jc) :
    getJob (updateScrapingJobStatus s id status pr) id = some
      { jc with
        status := status
        progress := pr.getD jc.progress
        completedAt :=
          if status = "completed" ∨ status = "failed" then true
          else jc.completedAt } := by
  unfold updateScrapingJobStatus
  rw [getJob_updateJob, h]
  rfl

lemma getJob_metrics_update (s : Storage) (id : String) (rf tp : Option Nat)
    (b : Bool) (jc : Job) (h : getJob s id = some jc) :
    getJob (updateScrapingJobMetrics s id rf tp b) id = some
      { jc with
        recordsFound := match rf with | some n => some n | none => jc.recordsFound
        totalPages := match tp with | some n => some n | none => jc.totalPages
        completedAt := if b then true else jc.completedAt } := by
  unfold updateScrapingJobMetrics
  rw [getJob_updateJob, h]
  rfl

lemma scraped_status_update (s : Storage) (id status : String) (pr : Option Nat) :
    (updateScrapingJobStatus s id status pr).scraped = s.scraped := rfl

lemma scraped_metrics_update (s : Storage) (id : String) (rf tp : Option Nat)
    (b : Bool) : (updateScrapingJobMetrics s id rf tp b).scraped = s.scraped := rfl

lemma scraped_addJobLog (s : Storage) (a b c : String) :
    (addJobLog s a b c).scraped = s.scraped := rfl

lemma scraped_addScrapedData (s : Storage) (row : ScrapedRow) :
    (addScrapedData s row).scraped = s.scraped ++ [row] := rfl

/-- Shape of an arbitrary loop run (any schedule, any fetch outcomes): the
processed count grows by some `s`; the persisted progress values are exactly
`progressOf (p+1) total, …, progressOf (p+s) total` in order; exactly one
rate-limit wait of `1000 / effRate cfg` milliseconds happens per successfully
processed URL, placed right after that URL's progress persistence; failed URLs
produce no wait. -/
lemma runUrls_shape (env : RunEnv) (jobId aT : String) (cfg : Option Config)
    (sched : Nat → Ctrl) (total : Nat) :
    ∀ (urls : List String) (i p : Nat) (st : ServiceState),
    ∃ s : Nat,
      (runUrls env jobId aT cfg sched total urls i p st).1 = p + s ∧
      progressValuesOf (runUrls env jobId aT cfg sched total urls i p st).2.2
        = (List.range' (p + 1) s).map (fun m => progressOf m total) ∧
      waitsOf (runUrls env jobId aT cfg sched total urls i p st).2.2
        = List.replicate s (1000 / effRate cfg) ∧
      LoopShape jobId (1000 / effRate cfg)
        (runUrls env jobId aT cfg sched total urls i p st).2.2 := by
  intro urls
  induction urls with
  | nil =>
    intro i p st
    exact ⟨0, by simp [runUrls], by simp [runUrls, progressValuesOf],
      by simp [runUrls, waitsOf], by simpa [runUrls] using LoopShape.nil⟩
  | cons url rest ih =>
    intro i p st
    simp only [runUrls]
    split
    · exact ⟨0, by simp, by simp [progressValuesOf], by simp [waitsOf],
        LoopShape.nil⟩
    · rcases hscrape : scrapeUrl env jobId url aT cfg
          (applyCtrl (sched i) jobId st).storage with msg | ⟨s', evs⟩
      · simp only [hscrape]
        obtain ⟨s, h1, h2, h3, h4⟩ := ih (i + 1) p
          ⟨(applyCtrl (sched i) jobId st).activeJobs,
           (applyCtrl (sched i) jobId st).pausedJobs,
           addJobLog (applyCtrl (sched i) jobId st).storage jobId "error"
             ("Failed to scrape " ++ url ++ ": Error: " ++ msg)⟩
        refine ⟨s, h1, ?_, ?_, ?_⟩
        · rw [progressValuesOf_cons_log]
          exact h2
        · rw [waitsOf_cons_log]
          exact h3
        · exact LoopShape.fail _ _ h4
      · simp only [hscrape]
        have hpe := scrapeUrl_ok_events env jobId url aT cfg _ _ _ hscrape
        obtain ⟨s, h1, h2, h3, h4⟩ := ih (i + 1) (p + 1)
          ⟨(applyCtrl (sched i) jobId st).activeJobs,
           (applyCtrl (sched i) jobId st).pausedJobs,
           updateScrapingJobStatus s' jobId "running"
             (some (progressOf (p + 1) total))⟩
        refine ⟨s + 1, by omega, ?_, ?_, ?_⟩
        · rw [progressValuesOf_append, persistEvents_progressValues hpe,
            progressValuesOf_cons_status, progressValuesOf_cons_wait,
            List.nil_append, h2, List.range'_succ, List.map_cons]
        · rw [waitsOf_append, persistEvents_waits hpe, waitsOf_cons_status,
            waitsOf_cons_wait, List.nil_append, h3, List.replicate_succ]
        · exact LoopShape.succ evs _ _ hpe h4

/-- Running the loop over a prefix `xs` whose fetches all succeed, with no
control signal delivered at the corresponding check points and a clean
registry, consumes all of `xs` and then continues with `ys`: the registries
are unchanged, `recordsFound` grows by the number of non-empty extractions,
the scraped rows of the prefix trace are appended in order (their source URLs
are exactly the `xs` entries with non-empty extraction), and the prefix trace
carries the progress values `progressOf (p+1) total … progressOf (p+|xs|) total`. -/
lemma runUrls_ok_prefix (env : RunEnv) (jobId aT : String) (cfg : Option Config)
    (sched : Nat → Ctrl) (total : Nat) :
    ∀ (xs ys : List String) (i p rv : Nat) (st : ServiceState) (jc : Job),
    (∀ j, j < xs.length → sched (i + j) = Ctrl.idle) →
    st.pausedJobs.contains jobId = false →
    lookupActive st.activeJobs jobId = some true →
    (∀ u ∈ xs, ∃ h, env.fetch u = Except.ok h) →
    getJob st.storage jobId = some jc →
    jc.recordsFound.getD 0 = rv →
    ∃ (st' : ServiceState) (tr : List Event) (jc' : Job),
      runUrls env jobId aT cfg sched total (xs ++ ys) i p st =
        ((runUrls env jobId aT cfg sched total ys (i + xs.length)
            (p + xs.length) st').1,
         (runUrls env jobId aT cfg sched total ys (i + xs.length)
            (p + xs.length) st').2.1,
         tr ++ (runUrls env jobId aT cfg sched total ys (i + xs.length)
            (p + xs.length) st').2.2) ∧
      st'.pausedJobs = st.pausedJobs ∧
      st'.activeJobs = st.activeJobs ∧
      getJob st'.storage jobId = some jc' ∧
      jc'.recordsFound.getD 0 = rv + (xs.filter (extractsB env aT)).length ∧
      st'.storage.scraped = st.storage.scraped ++ recordsOf tr ∧
      (recordsOf tr).map ScrapedRow.sourceUrl = xs.filter (extractsB env aT) ∧
      progressValuesOf tr
        = (List.range' (p + 1) xs.length).map (fun m => progressOf m total) := by
  intro xs
  induction xs with
  | nil =>
    intro ys i p rv st jc hsched hp ha hok hjob hrv
    refine ⟨st, [], jc, ?_, rfl, rfl, hjob, by simpa using hrv, by simp [recordsOf],
      by simp [recordsOf], by simp [progressValuesOf]⟩
    simp only [List.nil_append, List.length_nil, Nat.add_zero]
  | cons u xs ih =>
    intro ys i p rv st jc hsched hp ha hok hjob hrv
    obtain ⟨h, hfetch⟩ := hok u (by simp)
    have h0 : sched i = Ctrl.idle := by simpa using hsched 0 (by simp)
    have hsched' : ∀ j, j < xs.length → sched (i + 1 + j) = Ctrl.idle := by
      intro j hj
      have := hsched (j + 1) (by simp; omega)
      simpa [show i + (j + 1) = i + 1 + j by omega] using this
    have hok' : ∀ v ∈ xs, ∃ hb, env.fetch v = Except.ok hb :=
      fun v hv => hok v (by simp [hv])
    simp only [List.cons_append, runUrls, h0, applyCtrl_idle]
    rw [breakCond_false st jobId hp ha]
    simp only [Bool.false_eq_true, if_false, List.append_eq]
    by_cases hemp : extractData env (env.parse h) aT = []
    · have hextB : extractsB env aT u = false := by
        unfold extractsB
        rw [hfetch]
        simp [hemp]
      simp only [scrapeUrl_ok_empty env jobId u aT cfg st.storage h hfetch hemp]
      obtain ⟨st', tr', jc', ihEq, ihP, ihA, ihJ, ihR, ihS, ihM, ihV⟩ :=
        ih ys (i + 1) (p + 1) rv
          ⟨st.activeJobs, st.pausedJobs,
           updateScrapingJobStatus st.storage jobId "running"
             (some (progressOf (p + 1) total))⟩
          _ hsched' hp ha hok'
          (getJob_status_update st.storage jobId "running"
            (some (progressOf (p + 1) total)) jc hjob)
          (by simpa using hrv)
      refine ⟨st', Event.statusUpdate jobId "running" (some (progressOf (p + 1) total))
          :: Event.waited (1000 / effRate cfg) :: tr', jc', ?_, ihP, ihA, ihJ,
          ?_, ?_, ?_, ?_⟩
      · rw [ihEq]
        simp only [List.length_cons]
        rw [show i + (xs.length + 1) = i + 1 + xs.length from by omega,
          show p + (xs.length + 1) = p + 1 + xs.length from by omega]
        simp
      · rw [ihR, List.filter_cons_of_neg (by simp [hextB])]
      · rw [ihS, recordsOf_cons_status, recordsOf_cons_wait]
        rfl
      · rw [List.filter_cons_of_neg (by simp [hextB]),
          recordsOf_cons_status, recordsOf_cons_wait]
        exact ihM
      · simp only [List.length_cons, List.range'_succ, List.map_cons]
        rw [progressValuesOf_cons_status, progressValuesOf_cons_wait, ihV]
    · have hextB : extractsB env aT u = true := by
        unfold extractsB
        rw [hfetch]
        simpa using hemp
      have hj1 : getJob (addScrapedData st.storage (scrapeRow env jobId u aT cfg h))
          jobId = some jc := by
        rw [getJob_addScrapedData]; exact hjob
      have hj2 := getJob_metrics_update _ jobId
        (some (jc.recordsFound.getD 0 + 1)) none false jc hj1
      have hj3 := getJob_status_update _ jobId "running"
        (some (progressOf (p + 1) total)) _ hj2
      simp only [scrapeUrl_ok_nonempty env jobId u aT cfg st.storage h jc hfetch hemp hjob]
      obtain ⟨st', tr', jc', ihEq, ihP, ihA, ihJ, ihR, ihS, ihM, ihV⟩ :=
        ih ys (i + 1) (p + 1) (rv + 1)
          ⟨st.activeJobs, st.pausedJobs,
           updateScrapingJobStatus
             (updateScrapingJobMetrics
               (addScrapedData st.storage (scrapeRow env jobId u aT cfg h))
               jobId (some (jc.recordsFound.getD 0 + 1)) none false)
             jobId "running" (some (progressOf (p + 1) total))⟩
          _ hsched' hp ha hok' hj3 (by simp [hrv])
      refine ⟨st',
        Event.recordAdded (scrapeRow env jobId u aT cfg h)
          :: Event.metricsUpdate jobId (some (jc.recordsFound.getD 0 + 1)) none false
          :: Event.statusUpdate jobId "running" (some (progressOf (p + 1) total))
          :: Event.waited (1000 / effRate cfg) :: tr', jc', ?_, ihP, ihA, ihJ,
          ?_, ?_, ?_, ?_⟩
      · rw [ihEq]
        simp only [List.length_cons]
        rw [show i + (xs.length + 1) = i + 1 + xs.length from by omega,
          show p + (xs.length + 1) = p + 1 + xs.length from by omega]
        simp
      · rw [ihR, List.filter_cons_of_pos (by simp [hextB])]
        simp only [List.length_cons]
        omega
      · rw [ihS, recordsOf_cons_record, recordsOf_cons_metrics,
          recordsOf_cons_status, recordsOf_cons_wait]
        simp [scraped_status_update, scraped_metrics_update, scraped_addScrapedData]
      · rw [List.filter_cons_of_pos (by simp [hextB]),
          recordsOf_cons_record, recordsOf_cons_metrics,
          recordsOf_cons_status, recordsOf_cons_wait, List.map_cons, ihM]
        rfl
      · simp only [List.length_cons, List.range'_succ, List.map_cons]
        rw [progressValuesOf_cons_record, progressValuesOf_cons_metrics,
          progressValuesOf_cons_status, progressValuesOf_cons_wait, ihV]

/-- Specialisation of `runUrls_ok_prefix` to a whole URL list: the loop
consumes every URL. -/
lemma runUrls_ok_full (env : RunEnv) (jobId aT : String) (cfg : Option Config)
    (sched : Nat → Ctrl) (total : Nat) (xs : List String) (i p rv : Nat)
    (st : ServiceState) (jc : Job)
    (hsched : ∀ j, j < xs.length → sched (i + j) = Ctrl.idle)
    (hp : st.pausedJobs.contains jobId = false)
    (ha : lookupActive st.activeJobs jobId = some true)
    (hok : ∀ u ∈ xs, ∃ h, env.fetch u = Except.ok h)
    (hjob : getJob st.storage jobId = some jc)
    (hrv : jc.recordsFound.getD 0 = rv) :
    ∃ (st' : ServiceState) (tr : List Event) (jc' : Job),
      runUrls env jobId aT cfg sched total xs i p st = (p + xs.length, st', tr) ∧
      st'.pausedJobs = st.pausedJobs ∧
      st'.activeJobs = st.activeJobs ∧
      getJob st'.storage jobId = some jc' ∧
      jc'.recordsFound.getD 0 = rv + (xs.filter (extractsB env aT)).length ∧
      st'.storage.scraped = st.storage.scraped ++ recordsOf tr ∧
      (recordsOf tr).map ScrapedRow.sourceUrl = xs.filter (extractsB env aT) ∧
      progressValuesOf tr
        = (List.range' (p + 1) xs.length).map (fun m => progressOf m total) := by
  obtain ⟨st', tr, jc', hEq, h2, h3, h4, h5, h6, h7, h8⟩ :=
    runUrls_ok_prefix env jobId aT cfg sched total xs [] i p rv st jc
      hsched hp ha hok hjob hrv
  refine ⟨st', tr, jc', ?_, h2, h3, h4, h5, h6, h7, h8⟩
  rw [List.append_nil] at hEq
  rw [hEq]
  simp [runUrls]

/-- C1: for a job whose every URL fetches successfully and extracts a
non-empty mapping (with a fresh `recordsFound`), `start` finishes with status
`completed`, progress 100, `totalPages` and `recordsFound` equal to the URL
count. -/
theorem start_all_success_completes (env : RunEnv) (jobId : String)
    (st : ServiceState) (job : Job)
    (hjob : getJob st.storage jobId = some job)
    (hpause : st.pausedJobs.contains jobId = false)
    (hrv : job.recordsFound.getD 0 = 0)
    (hok : ∀ u ∈ job.urls, ∃ h, env.fetch u = Except.ok h ∧
      extractData env (env.parse h) job.adapterType ≠ []) :
    ∃ j', getJob (startScrapingJob env jobId noCtrl st).1.storage jobId = some j' ∧
      j'.status = "completed" ∧ j'.progress = 100 ∧
      j'.totalPages = some job.urls.length ∧
      j'.recordsFound.getD 0 = job.urls.length := by
  have hok' : ∀ u ∈ job.urls, ∃ h, env.fetch u = Except.ok h :=
    fun u hu => ((hok u hu).imp (fun h hh => hh.1))
  have hextAll : ∀ u ∈ job.urls, extractsB env job.adapterType u = true := by
    intro u hu
    obtain ⟨h, hf, hne⟩ := hok u hu
    unfold extractsB
    rw [hf]
    simpa using hne
  simp only [startScrapingJob, hjob]
  obtain ⟨st', tr, jc', hEq, hP, hA, hJ, hR, hS, hM, hV⟩ :=
    runUrls_ok_full env jobId job.adapterType job.config noCtrl job.urls.length
      job.urls 0 0 0
      ⟨setActive st.activeJobs jobId true, st.pausedJobs,
       addJobLog (updateScrapingJobStatus st.storage jobId "running" (some 0))
         jobId "info" "Job started"⟩
      _ (fun j hj => rfl) hpause (lookupActive_setActive _ _ _) hok'
      (by rw [getJob_addJobLog]
          exact getJob_status_update st.storage jobId "running" (some 0) job hjob)
      (by simpa using hrv)
  rw [hEq]
  simp only [Nat.zero_add, eq_self_iff_true, if_true]
  have hfin := getJob_metrics_update _ jobId none (some job.urls.length) true _
    (getJob_status_update st'.storage jobId "completed" (some 100) jc' hJ)
  refine ⟨_, by rw [getJob_addJobLog]; exact hfin, by simp, by simp, by simp, ?_⟩
  have hcnt : (job.urls.filter (extractsB env job.adapterType)).length
      = job.urls.length := by
    rw [List.filter_eq_self.mpr hextAll]
  simp [hR, hcnt]

/-- If the first `xs` URLs all fetch successfully with no control signal, and
a pause or stop signal is delivered at the check point right after them (with
at least one URL left), the loop breaks there: it returns exactly
`p + xs.length` processed URLs and the signal's registry effect, without
touching the remaining URLs. -/
lemma runUrls_break_mid (env : RunEnv) (jobId aT : String) (cfg : Option Config)
    (sched : Nat → Ctrl) (total : Nat) (c : Ctrl) (xs ys : List String)
    (y : String) (ys' : List String) (hys : ys = y :: ys')
    (i p rv : Nat) (st : ServiceState) (jc : Job)
    (hc : c = Ctrl.pauseSignal ∨ c = Ctrl.stopSignal)
    (hidle : ∀ j, j < xs.length → sched (i + j) = Ctrl.idle)
    (hfire : sched (i + xs.length) = c)
    (hp : st.pausedJobs.contains jobId = false)
    (ha : lookupActive st.activeJobs jobId = some true)
    (hok : ∀ u ∈ xs, ∃ h, env.fetch u = Except.ok h)
    (hjob : getJob st.storage jobId = some jc)
    (hrv : jc.recordsFound.getD 0 = rv) :
    ∃ (st' : ServiceState) (tr : List Event) (jc' : Job),
      runUrls env jobId aT cfg sched total (xs ++ ys) i p st
        = (p + xs.length, applyCtrl c jobId st', tr) ∧
      st'.pausedJobs = st.pausedJobs ∧
      st'.activeJobs = st.activeJobs ∧
      getJob st'.storage jobId = some jc' ∧
      jc'.recordsFound.getD 0 = rv + (xs.filter (extractsB env aT)).length ∧
      st'.storage.scraped = st.storage.scraped ++ recordsOf tr ∧
      (recordsOf tr).map ScrapedRow.sourceUrl = xs.filter (extractsB env aT) ∧
      progressValuesOf tr
        = (List.range' (p + 1) xs.length).map (fun m => progressOf m total) := by
  obtain ⟨st', tr, jc', hEq, h2, h3, h4, h5, h6, h7, h8⟩ :=
    runUrls_ok_prefix env jobId aT cfg sched total xs ys i p rv st jc
      hidle hp ha hok hjob hrv
  refine ⟨st', tr, jc', ?_, h2, h3, h4, h5, h6, h7, h8⟩
  rw [hEq, hys]
  have hbreak : breakCond (applyCtrl c jobId st') jobId = true := by
    rcases hc with rfl | rfl
    · unfold breakCond
      rw [show (applyCtrl Ctrl.pauseSignal jobId st').pausedJobs
            = addPaused st'.pausedJobs jobId from rfl, contains_addPaused]
      rfl
    · unfold breakCond
      rw [show (applyCtrl Ctrl.stopSignal jobId st').pausedJobs
            = removePaused st'.pausedJobs jobId from rfl,
          show (applyCtrl Ctrl.stopSignal jobId st').activeJobs
            = setActive st'.activeJobs jobId false from rfl,
          contains_removePaused, lookupActive_setActive]
      rfl
  simp only [runUrls, hfire, hbreak, if_true]
  simp

/-- C3: a pause (or stop) signal delivered after URL `k` was processed and
before URL `k+1` starts makes the loop exit at the next check point: the final
status is `paused` (for stop as well), the persisted progress is
`progressOf k N`, the run's progress sequence shows exactly `k` per-URL
updates, and every scraped row the run added comes from the first `k` URLs. -/
theorem pause_stop_after_k (env : RunEnv) (jobId : String) (st : ServiceState)
    (job : Job) (k : Nat) (c : Ctrl)
    (hc : c = Ctrl.pauseSignal ∨ c = Ctrl.stopSignal)
    (hjob : getJob st.storage jobId = some job)
    (hpause : st.pausedJobs.contains jobId = false)
    (hk : k < job.urls.length)
    (hok : ∀ u ∈ job.urls.take k, ∃ h, env.fetch u = Except.ok h) :
    ∃ j', getJob (startScrapingJob env jobId
        (fun n => if n = k then c else Ctrl.idle) st).1.storage jobId = some j' ∧
      j'.status = "paused" ∧
      j'.progress = progressOf k job.urls.length ∧
      (∀ row ∈ (startScrapingJob env jobId
          (fun n => if n = k then c else Ctrl.idle) st).1.storage.scraped,
        row ∈ st.storage.scraped ∨ row.sourceUrl ∈ job.urls.take k) ∧
      progressValuesOf (startScrapingJob env jobId
          (fun n => if n = k then c else Ctrl.idle) st).2
        = 0 :: ((List.range' 1 k).map (fun m => progressOf m job.urls.length)
            ++ [progressOf k job.urls.length]) := by
  have hlen : (job.urls.take k).length = k := by
    rw [List.length_take]
    omega
  obtain ⟨y, ys', hdk⟩ : ∃ y ys', job.urls.drop k = y :: ys' := by
    cases hdk : job.urls.drop k with
    | nil =>
      exfalso
      have := congrArg List.length hdk
      rw [List.length_drop] at this
      simp at this
      omega
    | cons y ys' => exact ⟨y, ys', rfl⟩
  simp only [startScrapingJob, hjob]
  obtain ⟨st', tr, jc', hEq, hP, hA, hJ, hR, hS, hM, hV⟩ :=
    runUrls_break_mid env jobId job.adapterType job.config
      (fun n => if n = k then c else Ctrl.idle) job.urls.length c
      (job.urls.take k) (job.urls.drop k) y ys' hdk 0 0 _
      ⟨setActive st.activeJobs jobId true, st.pausedJobs,
       addJobLog (updateScrapingJobStatus st.storage jobId "running" (some 0))
         jobId "info" "Job started"⟩
      _ hc
      (by intro j hj
          rw [hlen] at hj
          simp only [Nat.zero_add]
          rw [if_neg (by omega)])
      (by simp [hlen])
      hpause (lookupActive_setActive _ _ _) hok
      (by rw [getJob_addJobLog]
          exact getJob_status_update st.storage jobId "running" (some 0) job hjob)
      rfl
  rw [List.take_append_drop] at hEq
  simp only [hlen, Nat.zero_add] at hEq hV
  rw [hEq]
  simp only []
  rw [if_neg (show ¬(k = job.urls.length) from by omega)]
  have hstor : (applyCtrl c jobId st').storage = st'.storage := by
    rcases hc with rfl | rfl <;> rfl
  have hfin := getJob_status_update st'.storage jobId "paused"
    (some (progressOf k job.urls.length)) jc' hJ
  refine ⟨{ jc' with
      status := "paused"
      progress := (some (progressOf k job.urls.length)).getD jc'.progress
      completedAt :=
        if "paused" = "completed" ∨ "paused" = "failed" then true
        else jc'.completedAt }, ?_, by simp, by simp, ?_, ?_⟩
  · show getJob (addJobLog (updateScrapingJobStatus
        (applyCtrl c jobId st').storage jobId "paused"
        (some (progressOf k job.urls.length))) jobId "warning"
        "Job paused or cancelled") jobId = _
    rw [getJob_addJobLog, hstor]
    exact hfin
  · intro row hrow
    have hrow2 : row ∈ (addJobLog (updateScrapingJobStatus
        (applyCtrl c jobId st').storage jobId "paused"
        (some (progressOf k job.urls.length))) jobId "warning"
        "Job paused or cancelled").scraped := hrow
    rw [show (addJobLog (updateScrapingJobStatus
          (applyCtrl c jobId st').storage jobId "paused"
          (some (progressOf k job.urls.length))) jobId "warning"
          "Job paused or cancelled").scraped
        = (applyCtrl c jobId st').storage.scraped from rfl, hstor, hS] at hrow2
    have hrow' : row ∈ st.storage.scraped ++ recordsOf tr := hrow2
    rcases List.mem_append.mp hrow' with hmem | hmem
    · exact Or.inl hmem
    · right
      have hmap : row.sourceUrl ∈ (recordsOf tr).map ScrapedRow.sourceUrl :=
        List.mem_map_of_mem _ hmem
      rw [hM] at hmap
      exact (List.mem_filter.mp hmap).1
  · show progressValuesOf (Event.statusUpdate jobId "running" (some 0)
        :: Event.logAdded jobId "info" "Job started" :: tr
        ++ [Event.statusUpdate jobId "paused" (some (progressOf k job.urls.length)),
            Event.logAdded jobId "warning" "Job paused or cancelled"]) = _
    simp only [progressValuesOf_cons_status, progressValuesOf_cons_log,
      progressValuesOf_append, hV]
    rfl

/-- C9: `resumeJob` clears the pause flag and re-invokes `startScrapingJob`
(first conjunct, definitional), and the re-invoked loop starts at URL index 0:
with every fetch succeeding and every extraction non-empty, the resumed run
persists one row per URL of the *whole* list, in order — so every URL already
processed before the pause is processed again. -/
theorem resume_reprocesses_from_start (env : RunEnv) (jobId : String)
    (st : ServiceState) (job : Job)
    (hjob : getJob st.storage jobId = some job)
    (hok : ∀ u ∈ job.urls, ∃ h, env.fetch u = Except.ok h ∧
      extractData env (env.parse h) job.adapterType ≠ []) :
    resumeJob env jobId noCtrl st
      = startScrapingJob env jobId noCtrl
          { st with pausedJobs := removePaused st.pausedJobs jobId } ∧
    (recordsOf (resumeJob env jobId noCtrl st).2).map ScrapedRow.sourceUrl
      = job.urls := by
  refine ⟨rfl, ?_⟩
  have hok' : ∀ u ∈ job.urls, ∃ h, env.fetch u = Except.ok h :=
    fun u hu => ((hok u hu).imp (fun h hh => hh.1))
  have hextAll : ∀ u ∈ job.urls, extractsB env job.adapterType u = true := by
    intro u hu
    obtain ⟨h, hf, hne⟩ := hok u hu
    unfold extractsB
    rw [hf]
    simpa using hne
  have hjob2 : getJob ({ st with pausedJobs := removePaused st.pausedJobs jobId }
      : ServiceState).storage jobId = some job := hjob
  simp only [resumeJob, startScrapingJob, hjob2]
  obtain ⟨st', tr, jc', hEq, hP, hA, hJ, hR, hS, hM, hV⟩ :=
    runUrls_ok_full env jobId job.adapterType job.config noCtrl job.urls.length
      job.urls 0 0 (job.recordsFound.getD 0)
      ⟨setActive st.activeJobs jobId true, removePaused st.pausedJobs jobId,
       addJobLog (updateScrapingJobStatus st.storage jobId "running" (some 0))
         jobId "info" "Job started"⟩
      _ (fun j hj => rfl) (contains_removePaused _ _)
      (lookupActive_setActive _ _ _) hok'
      (by rw [getJob_addJobLog]
          exact getJob_status_update st.storage jobId "running" (some 0) job hjob)
      (by simp)
  rw [hEq]
  simp only [Nat.zero_add, eq_self_iff_true, if_true]
  simp only [recordsOf_cons_status, recordsOf_cons_log, recordsOf_append,
    recordsOf_cons_metrics, recordsOf_nil, List.append_nil]
  rw [hM]
  exact List.filter_eq_self.mpr hextAll

/-- C6: in every execution pass over a found job — any schedule of pause/stop
signals, any fetch outcomes — the sequence of persisted progress values is
`0, progressOf 1 N, …, progressOf s N` (one value per successfully processed
URL, each equal to `Math.round(processed/total*100)`) closed by the terminal
update (100 on completion, else the repeated partial value), and this sequence
is monotonically non-decreasing. -/
theorem progress_formula_monotone (env : RunEnv) (jobId : String)
    (sched : Nat → Ctrl) (st : ServiceState) (job : Job)
    (hjob : getJob st.storage jobId = some job) :
    (∀ m : Nat, (progressOf m job.urls.length : ℤ)
      = mathRound ((m : ℚ) / (job.urls.length : ℚ) * 100)) ∧
    ∃ s : Nat,
      progressValuesOf (startScrapingJob env jobId sched st).2 =
        0 :: ((List.range' 1 s).map (fun m => progressOf m job.urls.length) ++
          [if s = job.urls.length then 100
           else progressOf s job.urls.length]) ∧
      List.Chain' (fun a b : Nat => a ≤ b)
        (progressValuesOf (startScrapingJob env jobId sched st).2) := by
  refine ⟨fun m => progressOf_eq_mathRound m job.urls.length, ?_⟩
  simp only [startScrapingJob, hjob]
  obtain ⟨s, h1, h2, h3, h4⟩ :=
    runUrls_shape env jobId job.adapterType job.config sched job.urls.length
      job.urls 0 0
      ⟨setActive st.activeJobs jobId true, st.pausedJobs,
       addJobLog (updateScrapingJobStatus st.storage jobId "running" (some 0))
         jobId "info" "Job started"⟩
  rw [h1]
  simp only [Nat.zero_add] at h2 ⊢
  have hmono : ∀ k, progressOf k job.urls.length
      ≤ progressOf (k + 1) job.urls.length :=
    fun k => progressOf_mono job.urls.length (Nat.le_succ k)
  by_cases hs : s = job.urls.length
  · rw [if_pos hs]
    have hval : progressValuesOf (Event.statusUpdate jobId "running" (some 0)
        :: Event.logAdded jobId "info" "Job started"
        :: (runUrls env jobId job.adapterType job.config sched
            job.urls.length job.urls 0 0
            ⟨setActive st.activeJobs jobId true, st.pausedJobs,
             addJobLog (updateScrapingJobStatus st.storage jobId "running" (some 0))
               jobId "info" "Job started"⟩).2.2
          ++ [Event.statusUpdate jobId "completed" (some 100),
              Event.metricsUpdate jobId none (some s) true,
              Event.logAdded jobId "info" "Job completed successfully"])
        = 0 :: ((List.range' 1 s).map (fun m => progressOf m job.urls.length)
            ++ [100]) := by
      simp only [progressValuesOf_cons_status, progressValuesOf_cons_log,
        progressValuesOf_append, h2]
      rfl
    refine ⟨s, ?_, ?_⟩
    · rw [hval, if_pos hs]
    · rw [hval]
      apply chain_progress_list _ _ _ hmono
      rcases Nat.eq_zero_or_pos s with h0 | hpos
      · exact Or.inl h0
      · right
        rw [hs]
        rw [progressOf_self (hs ▸ hpos)]
  · rw [if_neg hs]
    have hval : progressValuesOf (Event.statusUpdate jobId "running" (some 0)
        :: Event.logAdded jobId "info" "Job started"
        :: (runUrls env jobId job.adapterType job.config sched
            job.urls.length job.urls 0 0
            ⟨setActive st.activeJobs jobId true, st.pausedJobs,
             addJobLog (updateScrapingJobStatus st.storage jobId "running" (some 0))
               jobId "info" "Job started"⟩).2.2
          ++ [Event.statusUpdate jobId "paused"
                (some (progressOf s job.urls.length)),
              Event.logAdded jobId "warning" "Job paused or cancelled"])
        = 0 :: ((List.range' 1 s).map (fun m => progressOf m job.urls.length)
            ++ [progressOf s job.urls.length]) := by
      simp only [progressValuesOf_cons_status, progressValuesOf_cons_log,
        progressValuesOf_append, h2]
      rfl
    refine ⟨s, ?_, ?_⟩
    · rw [hval, if_neg hs]
    · rw [hval]
      apply chain_progress_list _ _ _ hmono
      exact Or.inr le_rfl

/-- C5 (amended): in any loop run, exactly one rate-limit wait of
`1000 / effRate cfg` milliseconds happens per successfully processed URL,
placed immediately after that URL's progress persistence and before the next
iteration (the `LoopShape` grammar), while a URL whose scrape fails
contributes only its error log entry and no wait. -/
theorem rate_wait_per_success (env : RunEnv) (jobId aT : String)
    (cfg : Option Config) (sched : Nat → Ctrl) (total : Nat)
    (urls : List String) (i p : Nat) (st : ServiceState) :
    ∃ s : Nat,
      (runUrls env jobId aT cfg sched total urls i p st).1 = p + s ∧
      waitsOf (runUrls env jobId aT cfg sched total urls i p st).2.2
        = List.replicate s (1000 / effRate cfg) ∧
      LoopShape jobId (1000 / effRate cfg)
        (runUrls env jobId aT cfg sched total urls i p st).2.2 := by
  obtain ⟨s, h1, h2, h3, h4⟩ :=
    runUrls_shape env jobId aT cfg sched total urls i p st
  exact ⟨s, h1, h3, h4⟩

/-! Concrete fixtures for evaluating the model at specific inputs. -/

/-- A parsed page whose `h1` text is `Hello` and everything else empty. -/
def tDoc : Doc :=
  { fullText := "x"
    selText := fun s => if s = "h1" then "Hello" else ""
    attrContent := fun _ => none }

/-- A fetch environment in which `u1` fails with an HTTP 500 and every other
URL returns markup whose `h1` is `Hello`; the contact regexes match nothing. -/
def tEnv : RunEnv :=
  { fetch := fun u =>
      if u = "u1" then Except.error "Error: HTTP 500: Internal Server Error"
      else Except.ok "<h1>Hello</h1>"
    parse := fun h => if h = "" then emptyDoc else tDoc
    matchEmail := fun _ => []
    matchPhone := fun _ => []}

/-- A 2-URL job whose first URL fails to fetch under `tEnv`. -/
def tJob : Job :=
  { urls := ["u1", "u2"], adapterType := "generic", config := none,
    status := "queued", progress := 0, recordsFound := some 0,
    totalPages := none, completedAt := false }

def tState : ServiceState :=
  { activeJobs := [], pausedJobs := [],
    storage := { jobs := [("j", tJob)], scraped := [], logs := [] } }

/-- A 1-URL job whose only URL fails to fetch under `tEnv`. -/
def fJob : Job :=
  { urls := ["u1"], adapterType := "generic", config := none,
    status := "queued", progress := 0, recordsFound := some 0,
    totalPages := none, completedAt := false }

def fState : ServiceState :=
  { activeJobs := [], pausedJobs := [],
    storage := { jobs := [("j", fJob)], scraped := [], logs := [] } }

/-- A 0-URL job already registered as actively running. -/
def aJob : Job :=
  { urls := [], adapterType := "generic", config := none,
    status := "running", progress := 0, recordsFound := some 0,
    totalPages := none, completedAt := false }

def aState : ServiceState :=
  { activeJobs := [("j", true)], pausedJobs := [],
    storage := { jobs := [("j", aJob)], scraped := [], logs := [] } }

/-- An entirely empty store and registry. -/
def e0State : ServiceState :=
  { activeJobs := [], pausedJobs := [],
    storage := { jobs := [], scraped := [], logs := [] } }

/-- C2 (code-bug evaluation): on the failing input — a 2-URL job whose first
fetch fails and whose second succeeds with a non-empty extraction — the run
writes exactly one error-level log entry and continues to the next URL (the
second URL's row is persisted), but the terminal outcome changes: the job ends
with status `paused`, progress 50 and a `Job paused or cancelled` warning
instead of `completed`, because a failed URL is never counted into
`processedPages`. -/
theorem fetch_failure_changes_terminal_outcome :
    ((startScrapingJob tEnv "j" noCtrl tState).1.storage.logs.filter
        (fun l => l.level == "error")).length = 1 ∧
    ((startScrapingJob tEnv "j" noCtrl tState).1.storage.scraped.map
        (fun r => r.sourceUrl)) = ["u2"] ∧
    (getJob (startScrapingJob tEnv "j" noCtrl tState).1.storage "j").map Job.status
      = some "paused" ∧
    (getJob (startScrapingJob tEnv "j" noCtrl tState).1.storage "j").map
        Job.progress = some 50 ∧
    (getJob (startScrapingJob tEnv "j" noCtrl tState).1.storage "j").map Job.status
      ≠ some "completed" ∧
    (startScrapingJob tEnv "j" noCtrl tState).1.storage.logs.contains
      ⟨"j", "warning", "Job paused or cancelled"⟩ = true := by
  decide

/-- C5 (counterexample): the claim says the wait is applied once per processed
URL and that a per-URL failure does not skip it.  On a 1-URL job whose fetch
fails, the URL is attempted (exactly one error log) yet the run performs no
rate-limit wait at all: the delay sits inside the `try` and the `catch` skips
it. -/
theorem failed_url_skips_wait_cex :
    ((startScrapingJob tEnv "j" noCtrl fState).1.storage.logs.filter
        (fun l => l.level == "error")).length = 1 ∧
    waitsOf (startScrapingJob tEnv "j" noCtrl fState).2 = [] := by
  decide

/-- C4 (counterexample): `startScrapingJob` performs no AlreadyActive check:
with `j` already registered active, a second `start` is not rejected — it
re-registers the id and runs a full second execution pass to completion,
emitting exactly the trace a fresh start would. -/
theorem duplicate_start_not_rejected_cex :
    lookupActive aState.activeJobs "j" = some true ∧
    (startScrapingJob tEnv "j" noCtrl aState).2
      = [Event.statusUpdate "j" "running" (some 0),
         Event.logAdded "j" "info" "Job started",
         Event.statusUpdate "j" "completed" (some 100),
         Event.metricsUpdate "j" none (some 0) true,
         Event.logAdded "j" "info" "Job completed successfully"] := by
  decide

/-- C4 (amended): a duplicate `start` on an already-active job id is silently
accepted rather than rejected: the id is unconditionally re-registered via
`activeJobs.set(jobId, true)` and a second execution pass begins, emitting the
RUNNING / progress-0 update and the `Job started` log exactly like a fresh
start. -/
theorem duplicate_start_runs_again (env : RunEnv) (jobId : String)
    (sched : Nat → Ctrl) (st : ServiceState) (job : Job)
    (hactive : lookupActive st.activeJobs jobId = some true)
    (hjob : getJob st.storage jobId = some job) :
    lookupActive (setActive st.activeJobs jobId true) jobId = some true ∧
    ∃ rest, (startScrapingJob env jobId sched st).2
      = Event.statusUpdate jobId "running" (some 0)
        :: Event.logAdded jobId "info" "Job started" :: rest := by
  refine ⟨lookupActive_setActive _ _ _, ?_⟩
  simp only [startScrapingJob, hjob]
  split
  · exact ⟨_, rfl⟩
  · exact ⟨_, rfl⟩

lemma jobs_updateJob_absent (s : Storage) (id : String) (f : Job → Job)
    (h : getJob s id = none) : (updateJob s id f).jobs = s.jobs := by
  have hfind : s.jobs.find? (fun p => p.1 == id) = none := by
    cases hf : s.jobs.find? (fun p => p.1 == id) with
    | none => rfl
    | some v =>
      unfold getJob at h
      rw [hf] at h
      cases h
  have hall := List.find?_eq_none.mp hfind
  unfold updateJob
  simp only []
  calc s.jobs.map (fun p => if p.1 = id then (p.1, f p.2) else p)
      = s.jobs.map (fun a => a) := List.map_congr_left (fun a ha => by
        rw [if_neg (by simpa using hall a ha)])
    _ = s.jobs := by simp

/-- C10 (amended): `start` on an id absent from storage throws `Job not found`
into the catch-all handler, which attempts a `failed` status update — a no-op
on the jobs store, since `updateOne` matches no row — and writes one
error-level log entry under that id.  The jobs store is unchanged, but a log
row is persisted: there is no side-effect-free NotFound rejection. -/
theorem start_unknown_id_failed_path (env : RunEnv) (jobId : String)
    (sched : Nat → Ctrl) (st : ServiceState)
    (hjob : getJob st.storage jobId = none) :
    (startScrapingJob env jobId sched st).1.storage.jobs = st.storage.jobs ∧
    (startScrapingJob env jobId sched st).1.storage.scraped
      = st.storage.scraped ∧
    (startScrapingJob env jobId sched st).1.storage.logs
      = st.storage.logs
        ++ [⟨jobId, "error", "Job failed: Error: Job not found"⟩] ∧
    (startScrapingJob env jobId sched st).2
      = [Event.statusUpdate jobId "failed" none,
         Event.logAdded jobId "error" "Job failed: Error: Job not found"] := by
  simp only [startScrapingJob, hjob]
  refine ⟨?_, by first | rfl | trivial, by first | rfl | trivial,
    by first | rfl | trivial⟩
  show (addJobLog (updateScrapingJobStatus st.storage jobId "failed" none)
      jobId "error" "Job failed: Error: Job not found").jobs = st.storage.jobs
  rw [jobs_addJobLog]
  exact jobs_updateJob_absent st.storage jobId _ hjob

/-- C10 (counterexample): the claim says an unknown job id leaves the store
untouched, with no status update and no log write.  Starting `missing` on an
empty store persists an error-level log row under that id (and emits a
`failed` status-update event); only the jobs collection itself is unchanged. -/
theorem start_unknown_id_writes_log_cex :
    (startScrapingJob tEnv "missing" noCtrl e0State).1.storage.jobs = [] ∧
    (startScrapingJob tEnv "missing" noCtrl e0State).1.storage.logs
      = [⟨"missing", "error", "Job failed: Error: Job not found"⟩] ∧
    (startScrapingJob tEnv "missing" noCtrl e0State).2
      = [Event.statusUpdate "missing" "failed" none,
         Event.logAdded "missing" "error" "Job failed: Error: Job not found"] := by
  decide

lemma extractData_emptyDoc (env : RunEnv) (adapterType : String)
    (hE : env.matchEmail "" = []) (hP : env.matchPhone "" = []) :
    extractData env emptyDoc adapterType = [] := by
  unfold extractData
  rw [show emptyDoc.fullText = "" from rfl, hE, hP]
  by_cases h1 : adapterType = "ecommerce"
  · rw [if_pos h1]; decide
  · rw [if_neg h1]
    by_cases h2 : adapterType = "directory"
    · rw [if_pos h2]; decide
    · rw [if_neg h2]
      by_cases h3 : adapterType = "news"
      · rw [if_pos h3]; decide
      · rw [if_neg h3]
        by_cases h4 : adapterType = "social"
        · rw [if_pos h4]; decide
        · rw [if_neg h4]; decide

/-- C7: extraction is a total Lean function — it never raises and is
deterministic for identical markup, for every document and adapter type;
every value in the returned mapping is a non-empty string; on empty markup
(parsed to the empty document, the two regexes matching nothing in the empty
text) it returns the empty mapping; and when the extraction is empty,
`scrapeUrl` persists nothing: no row, no metrics update, no event. -/
theorem extract_safe (env : RunEnv) (doc : Doc) (adapterType : String)
    (hE : env.matchEmail "" = []) (hP : env.matchPhone "" = [])
    (hparse : env.parse "" = emptyDoc) :
    (∀ kv ∈ extractData env doc adapterType, kv.2 ≠ "") ∧
    extractData env (env.parse "") adapterType = [] ∧
    (∀ (jobId url : String) (cfg : Option Config) (s : Storage) (h : String),
      env.fetch url = Except.ok h →
      extractData env (env.parse h) adapterType = [] →
      scrapeUrl env jobId url adapterType cfg s = Except.ok (s, [])) := by
  refine ⟨?_, ?_, ?_⟩
  · intro kv hkv
    unfold extractData at hkv
    simp only [List.mem_filter] at hkv
    simpa using hkv.2
  · rw [hparse]
    exact extractData_emptyDoc env adapterType hE hP
  · intro jobId url cfg s h hf he
    exact scrapeUrl_ok_empty env jobId url adapterType cfg s h hf he

/-- C8: only the first regex match of each kind is kept: whenever the email
scan over the page text returns `e` first and the phone scan returns `p`
first (real matches of these patterns are never empty strings), the extracted
mapping binds `email` to `e` and `phone` to `p` — later matches `es`, `ps`
are never aggregated, for every adapter type. -/
theorem extract_first_match_only (env : RunEnv) (doc : Doc)
    (adapterType : String) (e p : String) (es ps : List String)
    (hE : env.matchEmail doc.fullText = e :: es)
    (hP : env.matchPhone doc.fullText = p :: ps)
    (he : e ≠ "") (hp : p ≠ "") :
    (extractData env doc adapterType).lookup "email" = some e ∧
    (extractData env doc adapterType).lookup "phone" = some p := by
  unfold extractData
  rw [hE, hP]
  simp only [List.cons_append, List.nil_append]
  rw [List.filter_cons_of_pos (by simp [he]),
    List.filter_cons_of_pos (by simp [hp])]
  exact ⟨rfl, rfl⟩

/-! Witnesses: each claim theorem with hypotheses applied at a concrete
input, the hypotheses discharged there. -/

/-- A 2-URL job whose URLs both fetch successfully under `tEnv`. -/
def wJob : Job :=
  { urls := ["u2", "u3"], adapterType := "generic", config := none,
    status := "queued", progress := 0, recordsFound := none,
    totalPages := none, completedAt := false }

def wState : ServiceState :=
  { activeJobs := [], pausedJobs := [],
    storage := { jobs := [("j", wJob)], scraped := [], logs := [] } }

/-- `wState` with job `j` marked paused, for the resume witness. -/
def pState : ServiceState :=
  { activeJobs := [], pausedJobs := ["j"],
    storage := { jobs := [("j", wJob)], scraped := [], logs := [] } }

lemma wJob_fetch_ok : ∀ u ∈ wJob.urls, ∃ h, tEnv.fetch u = Except.ok h ∧
    extractData tEnv (tEnv.parse h) wJob.adapterType ≠ [] := by
  intro u hu
  simp only [wJob, List.mem_cons, List.not_mem_nil, or_false] at hu
  rcases hu with rfl | rfl
  · exact ⟨"<h1>Hello</h1>", rfl, by decide⟩
  · exact ⟨"<h1>Hello</h1>", rfl, by decide⟩

theorem start_all_success_completes_witness :
    (getJob wState.storage "j" = some wJob ∧
      wState.pausedJobs.contains "j" = false ∧ wJob.recordsFound.getD 0 = 0) ∧
    ∃ j', getJob (startScrapingJob tEnv "j" noCtrl wState).1.storage "j"
        = some j' ∧
      j'.status = "completed" ∧ j'.progress = 100 ∧
      j'.totalPages = some wJob.urls.length ∧
      j'.recordsFound.getD 0 = wJob.urls.length :=
  ⟨⟨rfl, rfl, rfl⟩,
   start_all_success_completes tEnv "j" wState wJob rfl rfl rfl wJob_fetch_ok⟩

theorem pause_stop_after_k_witness :
    ((Ctrl.pauseSignal = Ctrl.pauseSignal ∨ Ctrl.pauseSignal = Ctrl.stopSignal) ∧
      getJob wState.storage "j" = some wJob ∧
      wState.pausedJobs.contains "j" = false ∧ 1 < wJob.urls.length) ∧
    (∃ j', getJob (startScrapingJob tEnv "j"
        (fun n => if n = 1 then Ctrl.pauseSignal else Ctrl.idle)
          wState).1.storage "j" = some j' ∧
      j'.status = "paused" ∧
      j'.progress = progressOf 1 wJob.urls.length ∧
      (∀ row ∈ (startScrapingJob tEnv "j"
          (fun n => if n = 1 then Ctrl.pauseSignal else Ctrl.idle)
            wState).1.storage.scraped,
        row ∈ wState.storage.scraped ∨ row.sourceUrl ∈ wJob.urls.take 1) ∧
      progressValuesOf (startScrapingJob tEnv "j"
          (fun n => if n = 1 then Ctrl.pauseSignal else Ctrl.idle) wState).2
        = 0 :: ((List.range' 1 1).map (fun m => progressOf m wJob.urls.length)
            ++ [progressOf 1 wJob.urls.length])) :=
  ⟨⟨Or.inl rfl, rfl, rfl, by decide⟩,
   pause_stop_after_k tEnv "j" wState wJob 1 Ctrl.pauseSignal (Or.inl rfl)
     rfl rfl (by decide)
     (by intro u hu
         simp only [wJob, List.take, List.mem_cons, List.not_mem_nil,
           or_false] at hu
         rcases hu with rfl
         exact ⟨"<h1>Hello</h1>", rfl⟩)⟩

theorem progress_formula_monotone_witness :
    (getJob wState.storage "j" = some wJob) ∧
    ((∀ m : Nat, (progressOf m wJob.urls.length : ℤ)
      = mathRound ((m : ℚ) / (wJob.urls.length : ℚ) * 100)) ∧
    ∃ s : Nat,
      progressValuesOf (startScrapingJob tEnv "j" noCtrl wState).2 =
        0 :: ((List.range' 1 s).map (fun m => progressOf m wJob.urls.length) ++
          [if s = wJob.urls.length then 100
           else progressOf s wJob.urls.length]) ∧
      List.Chain' (fun a b : Nat => a ≤ b)
        (progressValuesOf (startScrapingJob tEnv "j" noCtrl wState).2)) :=
  ⟨rfl, progress_formula_monotone tEnv "j" noCtrl wState wJob rfl⟩

theorem extract_safe_witness :
    (tEnv.matchEmail "" = [] ∧ tEnv.matchPhone "" = [] ∧
      tEnv.parse "" = emptyDoc) ∧
    ((∀ kv ∈ extractData tEnv tDoc "news", kv.2 ≠ "") ∧
    extractData tEnv (tEnv.parse "") "news" = [] ∧
    (∀ (jobId url : String) (cfg : Option Config) (s : Storage) (h : String),
      tEnv.fetch url = Except.ok h →
      extractData tEnv (tEnv.parse h) "news" = [] →
      scrapeUrl tEnv jobId url "news" cfg s = Except.ok (s, []))) :=
  ⟨⟨rfl, rfl, rfl⟩, extract_safe tEnv tDoc "news" rfl rfl rfl⟩

/-- A page text carrying two email-pattern and two phone-pattern matches. -/
def cDoc : Doc :=
  { fullText := "a@b.co or c@d.co, call 555-123-4567 or 555-765-4321"
    selText := fun _ => ""
    attrContent := fun _ => none }

def cEnv : RunEnv :=
  { fetch := fun _ => Except.ok ""
    parse := fun _ => cDoc
    matchEmail := fun _ => ["a@b.co", "c@d.co"]
    matchPhone := fun _ => ["555-123-4567", "555-765-4321"] }

theorem extract_first_match_only_witness :
    (cEnv.matchEmail cDoc.fullText = ["a@b.co", "c@d.co"] ∧
      cEnv.matchPhone cDoc.fullText = ["555-123-4567", "555-765-4321"] ∧
      "a@b.co" ≠ "" ∧ "555-123-4567" ≠ "") ∧
    ((extractData cEnv cDoc "directory").lookup "email" = some "a@b.co" ∧
      (extractData cEnv cDoc "directory").lookup "phone"
        = some "555-123-4567") :=
  ⟨⟨rfl, rfl, by decide, by decide⟩,
   extract_first_match_only cEnv cDoc "directory" "a@b.co" "555-123-4567"
     ["c@d.co"] ["555-765-4321"] rfl rfl (by decide) (by decide)⟩

theorem resume_reprocesses_from_start_witness :
    (getJob pState.storage "j" = some wJob) ∧
    (resumeJob tEnv "j" noCtrl pState
      = startScrapingJob tEnv "j" noCtrl
          { pState with pausedJobs := removePaused pState.pausedJobs "j" } ∧
    (recordsOf (resumeJob tEnv "j" noCtrl pState).2).map ScrapedRow.sourceUrl
      = wJob.urls) :=
  ⟨rfl, resume_reprocesses_from_start tEnv "j" pState wJob rfl wJob_fetch_ok⟩

theorem duplicate_start_runs_again_witness :
    (lookupActive aState.activeJobs "j" = some true ∧
      getJob aState.storage "j" = some aJob) ∧
    (lookupActive (setActive aState.activeJobs "j" true) "j" = some true ∧
    ∃ rest, (startScrapingJob tEnv "j" noCtrl aState).2
      = Event.statusUpdate "j" "running" (some 0)
        :: Event.logAdded "j" "info" "Job started" :: rest) :=
  ⟨⟨rfl, rfl⟩, duplicate_start_runs_again tEnv "j" noCtrl aState aJob rfl rfl⟩

theorem start_unknown_id_failed_path_witness :
    (getJob e0State.storage "missing" = none) ∧
    ((startScrapingJob tEnv "missing" noCtrl e0State).1.storage.jobs
        = e0State.storage.jobs ∧
      (startScrapingJob tEnv "missing" noCtrl e0State).1.storage.scraped
        = e0State.storage.scraped ∧
      (startScrapingJob tEnv "missing" noCtrl e0State).1.storage.logs
        = e0State.storage.logs
          ++ [⟨"missing", "error", "Job failed: Error: Job not found"⟩] ∧
      (startScrapingJob tEnv "missing" noCtrl e0State).2
        = [Event.statusUpdate "missing" "failed" none,
           Event.logAdded "missing" "error"
             "Job failed: Error: Job not found"]) :=
  ⟨rfl, start_unknown_id_failed_path tEnv "missing" noCtrl e0State rfl⟩

end Scraper
